import Mathlib

/-!
Verification of the price-optimisation repository.

The repository consists of two Python modules:

* `src/01_generate-synthetic-data.py` — generates a synthetic (Price, Quantity)
  dataset: 100 base rows from an exponential price distribution with a linear
  demand model plus clipped normal noise, two batches of 10 outlier rows each,
  followed by a `Price >= 5` filter; the result is plotted and saved.
* `src/utils.py` — `LoggerManager`, a logging helper that on construction
  rotates old log files (`<script>-*.log`, sorted by filename, oldest deleted
  until at most `max_log_files - 1` remain) before creating a new timestamped
  log file.

The embedding below models numeric values as rationals and the random draws
consumed by `numpy` as explicit list (or stream) parameters, in the exact
order the script consumes them.  The filesystem state relevant to the logger
is modelled as the list of filenames in the log directory, and `os.remove`
failures as a partial map from filename to the raised `OSError`'s message.
-/

namespace PriceOpt

/-- One row of the generated DataFrame: a (Price, Quantity) pair. -/
structure Row where
  Price : ℚ
  Quantity : ℚ
deriving DecidableEq, Repr

/-- `pd.DataFrame ⟨'Price': price, 'Quantity': quantity⟩` : pair two parallel
columns into a list of rows (pandas aligns by position here; the shorter
column would be an error in pandas, both are always equal length in the
script). -/
def mkRows (ps qs : List ℚ) : List Row :=
  (ps.zip qs).map (fun x => Row.mk x.1 x.2)

/-- The row predicate of the filter `df[df['Price'] >= 5]`. -/
def priceFilter (r : Row) : Bool :=
  decide (5 ≤ r.Price)

/-- `ndarray.clip(min=0)` applied to one element: replace a negative value
by 0. -/
def clip0 (q : ℚ) : ℚ :=
  if q < 0 then 0 else q

/-- `generate_synthetic_data` from `src/01_generate-synthetic-data.py`,
parametrised by the six blocks of random draws it consumes, in consumption
order:

* `basePrices` — the `n = 100` draws of `np.random.exponential(scale=100, size=n)`;
* `baseNoise`  — the 100 draws of `np.random.normal(loc=0, scale=50, size=n)`;
* `lowPrices`  — the 10 draws of `np.random.uniform(low=5, high=50, size=10)`;
* `lowNoise`   — the 10 draws of `np.random.normal(loc=0, scale=50, size=10)`;
* `highPrices` — the 10 draws of `np.random.uniform(low=51, high=100, size=10)`;
* `highNoise`  — the 10 draws of `np.random.normal(loc=0, scale=50, size=10)`.

The body mirrors the source line by line: sort the base prices ascending,
compute `quantity = 1000 - 5*price + noise` clipped at 0, append the two
outlier batches (`1100 + noise` and `900 + noise`, not clipped) to the two
parallel columns, build the DataFrame, and keep the rows with `Price >= 5`. -/
def generate_synthetic_data
    (basePrices baseNoise lowPrices lowNoise highPrices highNoise : List ℚ) :
    List Row :=
  let price1 := List.insertionSort (· ≤ ·) basePrices
  let quantity1 := (price1.zip baseNoise).map (fun x => clip0 (1000 - 5 * x.1 + x.2))
  let price2 := price1 ++ lowPrices
  let quantity2 := quantity1 ++ lowNoise.map (fun e => 1100 + e)
  let price3 := price2 ++ highPrices
  let quantity3 := quantity2 ++ highNoise.map (fun e => 900 + e)
  (mkRows price3 quantity3).filter priceFilter

/-- The 100 base rows (sorted exponential prices, linear demand with clipped
noise), before outlier injection and filtering. -/
def baseRows (basePrices baseNoise : List ℚ) : List Row :=
  mkRows (List.insertionSort (· ≤ ·) basePrices)
    (((List.insertionSort (· ≤ ·) basePrices).zip baseNoise).map
      (fun x => clip0 (1000 - 5 * x.1 + x.2)))

/-- The 10 low-price outlier rows: quantities centred at 1100, not clipped. -/
def lowOutlierRows (lowPrices lowNoise : List ℚ) : List Row :=
  mkRows lowPrices (lowNoise.map (fun e => 1100 + e))

/-- The 10 mid/high-price outlier rows: quantities centred at 900, not clipped. -/
def highOutlierRows (highPrices highNoise : List ℚ) : List Row :=
  mkRows highPrices (highNoise.map (fun e => 900 + e))

/-- The generation algorithm exactly as §4.1 of the spec words it, for
comparison with `generate_synthetic_data` (which is translated from the
source).  Steps: (1) base prices sorted ascending; (2) linear demand
`1000 - 5*price + noise`, clipped to a minimum of 0; (3) 10 low-price
outlier rows with quantities centred at 1100; (4) 10 mid/high-price outlier
rows with quantities centred at 900; (5) concatenate base, low-price
outliers, high-price outliers in that order; (6) filter out any row with
`Price < 5`; (7) return the result. -/
def generate_spec
    (basePrices baseNoise lowPrices lowNoise highPrices highNoise : List ℚ) :
    List Row :=
  let sortedPrices := List.insertionSort (· ≤ ·) basePrices
  let base := (sortedPrices.zip baseNoise).map
    (fun x => Row.mk x.1 (clip0 (1000 - 5 * x.1 + x.2)))
  let low := (lowPrices.zip (lowNoise.map (fun e => 1100 + e))).map
    (fun x => Row.mk x.1 x.2)
  let high := (highPrices.zip (highNoise.map (fun e => 900 + e))).map
    (fun x => Row.mk x.1 x.2)
  ((base ++ low) ++ high).filter (fun r => decide (5 ≤ r.Price))

/-! ### Basic lemmas about the generator -/

lemma clip0_nonneg (q : ℚ) : 0 ≤ clip0 q := by
  unfold clip0
  split
  · exact le_refl 0
  · exact le_of_not_lt (by assumption)

lemma mkRows_append (p₁ p₂ q₁ q₂ : List ℚ) (h : p₁.length = q₁.length) :
    mkRows (p₁ ++ p₂) (q₁ ++ q₂) = mkRows p₁ q₁ ++ mkRows p₂ q₂ := by
  unfold mkRows
  rw [List.zip_append h, List.map_append]

lemma length_sorted (l : List ℚ) : (List.insertionSort (· ≤ ·) l).length = l.length :=
  (List.perm_insertionSort _ l).length_eq

/-- The generator output splits into the filtered base segment followed by the
two filtered outlier segments, provided the parallel price/quantity columns
are aligned (in the script all six lists have the fixed lengths
100/100/10/10/10/10, which satisfies both hypotheses). -/
lemma generate_eq_segments (bp bn lp ln hp hn : List ℚ)
    (h₁ : bp.length ≤ bn.length) (h₂ : lp.length = ln.length) :
    generate_synthetic_data bp bn lp ln hp hn =
      (baseRows bp bn).filter priceFilter ++
        ((lowOutlierRows lp ln).filter priceFilter ++
          (highOutlierRows hp hn).filter priceFilter) := by
  have hsplit₁ : ((List.insertionSort (· ≤ ·) bp) ++ lp).length =
      (((List.insertionSort (· ≤ ·) bp).zip bn).map
        (fun x : ℚ × ℚ => clip0 (1000 - 5 * x.1 + x.2)) ++ ln.map (fun e => 1100 + e)).length := by
    simp only [List.length_append, List.length_map, List.length_zip, length_sorted]
    omega
  have hsplit₂ : (List.insertionSort (· ≤ ·) bp).length =
      (((List.insertionSort (· ≤ ·) bp).zip bn).map
        (fun x : ℚ × ℚ => clip0 (1000 - 5 * x.1 + x.2))).length := by
    simp only [List.length_map, List.length_zip, length_sorted]
    omega
  simp only [generate_synthetic_data, baseRows, lowOutlierRows, highOutlierRows]
  rw [mkRows_append _ _ _ _ hsplit₁, mkRows_append _ _ _ _ hsplit₂,
    List.filter_append, List.filter_append, List.append_assoc]

/-! ### C1 -/

/-- C1: every row of every dataset returned by `generate_synthetic_data`
satisfies `Price ≥ 5`, regardless of the random draws (post-filter
invariant). -/
theorem price_filter_invariant (bp bn lp ln hp hn : List ℚ) :
    ∀ r ∈ generate_synthetic_data bp bn lp ln hp hn, 5 ≤ r.Price := by
  intro r hr
  simp only [generate_synthetic_data] at hr
  have h := List.of_mem_filter hr
  simpa [priceFilter] using h

/-- Witness for C1 at a concrete input: the dataset generated from one
low-price outlier draw contains the row (7, 1100 + 0), whose price the
theorem bounds. -/
theorem price_filter_invariant_witness :
    (5 : ℚ) ≤ (Row.mk 7 (1100 + 0)).Price :=
  price_filter_invariant [] [] [7] [0] [] [] (Row.mk 7 (1100 + 0))
    (by simp [generate_synthetic_data, mkRows, priceFilter]; decide)

/-! ### C2 -/

/-- C2 counterexample: the claim "every row has Quantity ≥ 0, including the
20 outlier rows, regardless of the normal noise draws" is false on the code:
the outlier quantities `1100 + noise` and `900 + noise` are never clipped,
so a noise draw of -2000 in the low-price outlier batch produces a returned
row with negative quantity, here at a full-shape input (100 base draws,
10 + 10 outlier draws). -/
theorem quantity_nonneg_counterexample :
    ∃ r ∈ generate_synthetic_data (List.replicate 100 10) (List.replicate 100 0)
        (List.replicate 10 10) (List.replicate 10 (-2000))
        (List.replicate 10 60) (List.replicate 10 0), r.Quantity < 0 := by
  have hlow : lowOutlierRows (List.replicate 10 10) (List.replicate 10 (-2000)) =
      List.replicate 10 (Row.mk 10 (1100 + (-2000))) := by
    simp [lowOutlierRows, mkRows, List.map_replicate, List.zip_replicate]
  refine ⟨Row.mk 10 (1100 + (-2000)), ?_, by norm_num⟩
  rw [generate_eq_segments _ _ _ _ _ _ (by simp) (by simp)]
  refine List.mem_append_right _ (List.mem_append_left _ ?_)
  rw [List.mem_filter, hlow]
  exact ⟨List.mem_replicate.mpr ⟨by norm_num, rfl⟩, by decide⟩

/-- C2 as amended: the clipping invariant holds for the base segment only —
every row contributed by the 100 base draws has `Quantity ≥ 0` regardless of
the noise draws, while the outlier rows (quantities `1100 + noise` and
`900 + noise`, not clipped) can be negative, as the counterexample shows.
The first conjunct records how the returned dataset decomposes into the
three segments. -/
theorem quantity_nonneg_amended (bp bn lp ln hp hn : List ℚ)
    (h₁ : bp.length ≤ bn.length) (h₂ : lp.length = ln.length) :
    generate_synthetic_data bp bn lp ln hp hn =
      (baseRows bp bn).filter priceFilter ++
        ((lowOutlierRows lp ln).filter priceFilter ++
          (highOutlierRows hp hn).filter priceFilter) ∧
    ∀ r ∈ (baseRows bp bn).filter priceFilter, 0 ≤ r.Quantity := by
  refine ⟨generate_eq_segments bp bn lp ln hp hn h₁ h₂, ?_⟩
  intro r hr
  have hr' : r ∈ baseRows bp bn := List.mem_of_mem_filter hr
  simp only [baseRows, mkRows, List.mem_map] at hr'
  obtain ⟨x, hx, hxr⟩ := hr'
  obtain ⟨p, q, rfl⟩ : ∃ p q, x = (p, q) := ⟨x.1, x.2, rfl⟩
  have hq := (List.of_mem_zip hx).2
  simp only [List.mem_map] at hq
  obtain ⟨y, _, hy⟩ := hq
  subst hxr
  simp only
  rw [← hy]
  exact clip0_nonneg _

/-- Witness for C2-amended at a concrete input: one base draw, no outliers. -/
theorem quantity_nonneg_amended_witness :
    generate_synthetic_data [10] [0] [] [] [] [] =
      (baseRows [10] [0]).filter priceFilter ++
        ((lowOutlierRows [] []).filter priceFilter ++
          (highOutlierRows [] []).filter priceFilter) ∧
    ∀ r ∈ (baseRows [10] [0]).filter priceFilter, 0 ≤ r.Quantity :=
  quantity_nonneg_amended [10] [0] [] [] [] [] (by simp) (by simp)

/-! ### C3 -/

/-- Counting pairs of a zip by a predicate on the first component counts the
first list, as long as the second list is at least as long. -/
lemma countP_zip_fst (p : ℚ → Bool) :
    ∀ ps qs : List ℚ, ps.length ≤ qs.length →
      (ps.zip qs).countP (fun x => p x.1) = ps.countP p := by
  intro ps
  induction ps with
  | nil => intro qs _; simp
  | cons a as ih =>
    intro qs hq
    cases qs with
    | nil => simp at hq
    | cons b bs =>
      simp only [List.zip_cons_cons, List.countP_cons, ih bs (by simpa using hq)]

/-- The number of rows of `mkRows ps qs` surviving the price filter is the
number of prices `≥ 5` in `ps`, as long as the columns are aligned. -/
lemma length_filter_mkRows (ps qs : List ℚ) (h : ps.length ≤ qs.length) :
    ((mkRows ps qs).filter priceFilter).length = ps.countP (fun p => decide (5 ≤ p)) := by
  unfold mkRows
  rw [List.filter_map, List.length_map, ← List.countP_eq_length_filter]
  have hfun : (priceFilter ∘ fun x : ℚ × ℚ => Row.mk x.1 x.2) =
      (fun x : ℚ × ℚ => decide (5 ≤ x.1)) := rfl
  rw [hfun]
  exact countP_zip_fst (fun p => decide (5 ≤ p)) ps qs h

/-- C3: with the script's draw shapes (100 base price draws, 100 base noise
draws, 10 + 10 outlier draws whose prices are drawn from [5,50) and
[51,100)), the returned dataset has exactly
`(number of base price draws ≥ 5) + 20` rows: every outlier price is ≥ 5 by
construction, so all 20 outlier rows survive the filter. -/
theorem row_count_eq (bp bn lp ln hp hn : List ℚ)
    (hbp : bp.length = 100) (hbn : bn.length = 100)
    (hlp : lp.length = 10) (hln : ln.length = 10)
    (hhp : hp.length = 10) (hhn : hn.length = 10)
    (hlow : ∀ p ∈ lp, 5 ≤ p ∧ p < 50)
    (hhigh : ∀ p ∈ hp, 51 ≤ p ∧ p < 100) :
    (generate_synthetic_data bp bn lp ln hp hn).length =
      bp.countP (fun p => decide (5 ≤ p)) + 20 := by
  rw [generate_eq_segments bp bn lp ln hp hn (by omega) (by omega)]
  simp only [List.length_append]
  have hbase : ((baseRows bp bn).filter priceFilter).length =
      bp.countP (fun p => decide (5 ≤ p)) := by
    unfold baseRows
    rw [length_filter_mkRows]
    · exact ((List.perm_insertionSort _ bp).countP_eq _)
    · rw [List.length_map, List.length_zip, length_sorted]
      omega
  have hlowlen : ((lowOutlierRows lp ln).filter priceFilter).length = 10 := by
    unfold lowOutlierRows
    rw [length_filter_mkRows lp _ (by rw [List.length_map]; omega),
      List.countP_eq_length.mpr, hlp]
    intro p hp'
    exact decide_eq_true (hlow p hp').1
  have hhighlen : ((highOutlierRows hp hn).filter priceFilter).length = 10 := by
    unfold highOutlierRows
    rw [length_filter_mkRows hp _ (by rw [List.length_map]; omega),
      List.countP_eq_length.mpr, hhp]
    intro p hp'
    have h51 := (hhigh p hp').1
    have : (5 : ℚ) ≤ p := by linarith
    exact decide_eq_true this
  omega

/-- Witness for C3 at a concrete full-shape input: 100 base draws of price
10, outlier prices 10 and 60. -/
theorem row_count_eq_witness :
    (generate_synthetic_data (List.replicate 100 10) (List.replicate 100 0)
        (List.replicate 10 10) (List.replicate 10 0)
        (List.replicate 10 60) (List.replicate 10 0)).length =
      (List.replicate 100 (10 : ℚ)).countP (fun p => decide (5 ≤ p)) + 20 :=
  row_count_eq _ _ _ _ _ _ (by simp) (by simp) (by simp) (by simp) (by simp) (by simp)
    (fun p hp => by rw [List.eq_of_mem_replicate hp]; exact ⟨by decide, by decide⟩)
    (fun p hp => by rw [List.eq_of_mem_replicate hp]; exact ⟨by decide, by decide⟩)

/-! ### C4 -/

/-- Zipping a list with a function of its own zip is the same as mapping the
combined function over the single zip. -/
lemma zip_map_self (f : ℚ × ℚ → ℚ) :
    ∀ ps qs : List ℚ,
      (ps.zip ((ps.zip qs).map f)).map (fun x => Row.mk x.1 x.2) =
        (ps.zip qs).map (fun x => Row.mk x.1 (f x)) := by
  intro ps
  induction ps with
  | nil => intro qs; simp
  | cons a as ih =>
    intro qs
    cases qs with
    | nil => simp
    | cons b bs => simp [ih bs]

/-- C4: `generate_synthetic_data` follows the algorithm and ordering stated
in the spec (`generate_spec`): sorted base segment with clipped linear
demand, then the low-price outlier rows, then the mid/high-price outlier
rows, concatenated in that order before the price filter.  Shown as an
equality with the spec-worded algorithm at the script's draw shapes. -/
theorem generator_refines_spec (bp bn lp ln hp hn : List ℚ)
    (hbp : bp.length = 100) (hbn : bn.length = 100)
    (hlp : lp.length = 10) (hln : ln.length = 10) :
    generate_synthetic_data bp bn lp ln hp hn = generate_spec bp bn lp ln hp hn := by
  rw [generate_eq_segments bp bn lp ln hp hn (by omega) (by omega)]
  have hfun : priceFilter = (fun r => decide (5 ≤ r.Price)) := rfl
  simp only [generate_spec, baseRows, lowOutlierRows, highOutlierRows, mkRows,
    hfun, List.filter_append, List.append_assoc]
  rw [zip_map_self]

/-- Witness for C4 at a concrete full-shape input. -/
theorem generator_refines_spec_witness :
    generate_synthetic_data (List.replicate 100 10) (List.replicate 100 0)
        (List.replicate 10 10) (List.replicate 10 0)
        (List.replicate 10 60) (List.replicate 10 0) =
      generate_spec (List.replicate 100 10) (List.replicate 100 0)
        (List.replicate 10 10) (List.replicate 10 0)
        (List.replicate 10 60) (List.replicate 10 0) :=
  generator_refines_spec _ _ _ _ _ _ (by simp) (by simp) (by simp) (by simp)

/-! ### C6 -/

/-- `generate_synthetic_data` run against a seeded RNG, modelled as the
stream `g : ℕ → ℚ` of values the numpy generator would produce from the
fixed seed (`np.random.seed(1)` fixes this stream).  The function consumes
exactly 240 draws, in the script's order: 100 exponential price draws,
100 normal noise draws, 10 uniform low-outlier prices, 10 normal noise
draws, 10 uniform high-outlier prices, 10 normal noise draws. -/
def generateFromStream (g : ℕ → ℚ) : List Row :=
  generate_synthetic_data
    ((List.range 100).map g)
    ((List.range 100).map (fun i => g (100 + i)))
    ((List.range 10).map (fun i => g (200 + i)))
    ((List.range 10).map (fun i => g (210 + i)))
    ((List.range 10).map (fun i => g (220 + i)))
    ((List.range 10).map (fun i => g (230 + i)))

/-- C6: the generator is deterministic in the RNG state: two runs whose RNG
streams agree (as they do for two runs from the same fixed seed — the
generator consumes only the first 240 draws) return equal (Price, Quantity)
datasets. -/
theorem generator_deterministic (g₁ g₂ : ℕ → ℚ)
    (h : ∀ i < 240, g₁ i = g₂ i) :
    generateFromStream g₁ = generateFromStream g₂ := by
  unfold generateFromStream
  have e₁ : (List.range 100).map g₁ = (List.range 100).map g₂ :=
    List.map_congr_left (fun i hi => h i (by have := List.mem_range.mp hi; omega))
  have e₂ : (List.range 100).map (fun i => g₁ (100 + i)) =
      (List.range 100).map (fun i => g₂ (100 + i)) :=
    List.map_congr_left (fun i hi => h _ (by have := List.mem_range.mp hi; omega))
  have e₃ : (List.range 10).map (fun i => g₁ (200 + i)) =
      (List.range 10).map (fun i => g₂ (200 + i)) :=
    List.map_congr_left (fun i hi => h _ (by have := List.mem_range.mp hi; omega))
  have e₄ : (List.range 10).map (fun i => g₁ (210 + i)) =
      (List.range 10).map (fun i => g₂ (210 + i)) :=
    List.map_congr_left (fun i hi => h _ (by have := List.mem_range.mp hi; omega))
  have e₅ : (List.range 10).map (fun i => g₁ (220 + i)) =
      (List.range 10).map (fun i => g₂ (220 + i)) :=
    List.map_congr_left (fun i hi => h _ (by have := List.mem_range.mp hi; omega))
  have e₆ : (List.range 10).map (fun i => g₁ (230 + i)) =
      (List.range 10).map (fun i => g₂ (230 + i)) :=
    List.map_congr_left (fun i hi => h _ (by have := List.mem_range.mp hi; omega))
  rw [e₁, e₂, e₃, e₄, e₅, e₆]

/-- Witness for C6: two concrete streams that agree on the 240 consumed
positions (they differ from position 240 on) generate the same dataset. -/
theorem generator_deterministic_witness :
    generateFromStream (fun _ => 0) =
      generateFromStream (fun i => if i < 240 then 0 else 1) :=
  generator_deterministic _ _ (fun i hi => by simp [hi])

/-! ### Logging events (shared by C7 and C8) -/

/-- The severity levels the scripts use. -/
inductive LogLevel where
  | info
  | error
  | critical
deriving DecidableEq, Repr

/-- One emitted log record: severity and message. -/
structure LogEvent where
  level : LogLevel
  msg : String
deriving DecidableEq, Repr

/-! ### C7 -/

/-- The try/except structure of `generate_synthetic_data`: the body (whose
outcome is the `body` parameter — `Except.error e` models an exception `e`
raised during generation) runs after the entry `log.info`; on success the
completion `log.info` fires and the DataFrame is returned; on an exception
the `log.error` fires and the same exception is re-raised.  Returns the
function's outcome together with the log records it emits. -/
def generate_synthetic_data_run (body : Except String (List Row)) :
    Except String (List Row) × List LogEvent :=
  match body with
  | Except.ok df =>
      (Except.ok df,
        [LogEvent.mk LogLevel.info "Generating synthetic data",
         LogEvent.mk LogLevel.info "Synthetic data generation completed"])
  | Except.error e =>
      (Except.error e,
        [LogEvent.mk LogLevel.info "Generating synthetic data",
         LogEvent.mk LogLevel.error ("Error in generating synthetic data: " ++ e)])

/-- C7: whenever an exception is raised during dataset generation,
`generate_synthetic_data` logs it at error level and re-raises the very same
exception (the outcome is `Except.error e`, never a swallowed success and
never a retried run). -/
theorem generate_error_logged_reraised (e : String) :
    (generate_synthetic_data_run (Except.error e)).1 = Except.error e ∧
    LogEvent.mk LogLevel.error ("Error in generating synthetic data: " ++ e) ∈
      (generate_synthetic_data_run (Except.error e)).2 := by
  constructor
  · rfl
  · simp [generate_synthetic_data_run]

/-! ### C8 -/

/-- The `if __name__ == '__main__'` driver of the generation script: runs
directory setup, generation, visualization and save in order inside one
`try`; the first phase exception is caught at the top level, logged at
critical level, and not re-raised (the driver returns normally).  Each
phase's outcome is a parameter (`Except.error e` models that phase raising
`e`, after the phase's own internal error logging modelled in
`generate_synthetic_data_run`).  Returns the driver's outcome — which would
be `Except.error` only if an exception escaped — plus the top-level log
records. -/
def main_run (dirs : Except String Unit) (gen : Except String (List Row))
    (viz : List Row → Except String Unit) (save : List Row → Except String Unit) :
    Except String Unit × List LogEvent :=
  let start := LogEvent.mk LogLevel.info "Starting data generation script"
  let crit := fun e => LogEvent.mk LogLevel.critical ("Script execution failed: " ++ e)
  match dirs with
  | Except.error e => (Except.ok (), [start, crit e])
  | Except.ok _ =>
    match gen with
    | Except.error e => (Except.ok (), [start, crit e])
    | Except.ok df =>
      match viz df with
      | Except.error e => (Except.ok (), [start, crit e])
      | Except.ok _ =>
        match save df with
        | Except.error e => (Except.ok (), [start, crit e])
        | Except.ok _ =>
          (Except.ok (),
            [start, LogEvent.mk LogLevel.info "Data generation completed successfully"])

/-- The first exception (in phase order: directory setup, generation,
visualization, save) that propagates out of a phase of the driver, if any. -/
def firstFailure (dirs : Except String Unit) (gen : Except String (List Row))
    (viz : List Row → Except String Unit) (save : List Row → Except String Unit) :
    Option String :=
  match dirs with
  | Except.error e => some e
  | Except.ok _ =>
    match gen with
    | Except.error e => some e
    | Except.ok df =>
      match viz df with
      | Except.error e => some e
      | Except.ok _ =>
        match save df with
        | Except.error e => some e
        | Except.ok _ => none

/-- C8: whenever any pipeline phase raises an exception, the top-level driver
still terminates normally (outcome `Except.ok ()` — the exception is not
re-raised to the process level) and a critical-level record for that
exception is in its log. -/
theorem main_swallows_failures (dirs : Except String Unit)
    (gen : Except String (List Row))
    (viz : List Row → Except String Unit) (save : List Row → Except String Unit)
    (e : String) (h : firstFailure dirs gen viz save = some e) :
    (main_run dirs gen viz save).1 = Except.ok () ∧
    LogEvent.mk LogLevel.critical ("Script execution failed: " ++ e) ∈
      (main_run dirs gen viz save).2 := by
  unfold firstFailure at h
  unfold main_run
  cases dirs with
  | error e' => simp_all
  | ok u =>
    cases gen with
    | error e' => simp_all
    | ok df =>
      cases hviz : viz df with
      | error e' => simp_all
      | ok u' =>
        cases hsave : save df with
        | error e' => simp_all
        | ok u'' => simp_all

/-- Witness for C8: the generation phase fails with exception "boom"; the
driver returns normally and logs the critical record. -/
theorem main_swallows_failures_witness :
    (main_run (Except.ok ()) (Except.error "boom")
        (fun _ => Except.ok ()) (fun _ => Except.ok ())).1 = Except.ok () ∧
    LogEvent.mk LogLevel.critical ("Script execution failed: " ++ "boom") ∈
      (main_run (Except.ok ()) (Except.error "boom")
        (fun _ => Except.ok ()) (fun _ => Except.ok ())).2 :=
  main_swallows_failures _ _ _ _ "boom" rfl

/-! ### LoggerManager model (src/utils.py)

The log directory is modelled as the list of filenames it contains.
`os.remove` failures are modelled by `osError : String → Option String`:
`osError f = some e` means removing `f` raises `OSError(e)`. -/

def strLeAux : List Char → List Char → Bool
  | [], _ => true
  | _ :: _, [] => false
  | a :: as, b :: bs =>
    if a.toNat < b.toNat then true
    else if b.toNat < a.toNat then false
    else strLeAux as bs

/-- Lexicographic code-point order on filenames: the order Python's
`sorted` uses on the strings returned by `glob.glob`. -/
def strLe (a b : String) : Bool :=
  strLeAux a.data b.data

/-- Membership test of one filename in
`glob.glob(os.path.join(log_dir, f"{script_name}-*.log"))`: the name is
`script_name`, a dash, an arbitrary (possibly empty) middle, and ".log";
the length bound keeps the prefix and the suffix from overlapping. -/
def matchesLog (script name : String) : Bool :=
  (script ++ "-").data.isPrefixOf name.data &&
    ".log".data.isSuffixOf name.data &&
    decide (script.length + 5 ≤ name.length)

/-- The message printed to standard error when removing a log file fails:
`print(f"Error removing log file {oldest_log}: {e}")`. -/
def removeMsg (f e : String) : String :=
  "Error removing log file " ++ f ++ ": " ++ e

/-- The `while len(existing_logs) >= max_log_files` loop of
`_cleanup_old_logs`, run on the sorted list of matching filenames: while
the remaining list has at least `m` entries, pop the head (the oldest
file) and try `os.remove` on it; an `OSError` is caught and printed, any
other situation is not (popping an empty list — possible only when
`m = 0` — raises an uncaught IndexError, modelled as `none`).  Returns the
list of files actually removed from disk and the standard-error messages,
in order. -/
def cleanupLoop (m : Nat) (osError : String → Option String) :
    List String → Option (List String × List String)
  | [] => if m = 0 then none else some ([], [])
  | f :: rest =>
    if m ≤ rest.length + 1 then
      (cleanupLoop m osError rest).map
        (fun pr =>
          match osError f with
          | some e => (pr.1, removeMsg f e :: pr.2)
          | none => (f :: pr.1, pr.2))
    else some ([], [])

/-- `sorted(glob.glob(log_pattern))`: the matching filenames of the
directory, sorted by name. -/
def sortedMatching (script : String) (dir : List String) : List String :=
  List.insertionSort (fun a b => strLe a b = true) (dir.filter (matchesLog script))

/-- `_cleanup_old_logs(script_name, log_dir, max_log_files)`: run the
cleanup loop on the sorted matching filenames; the directory afterwards
has lost exactly the removed files.  Returns the new directory contents
and the standard-error messages (or `none` for an uncaught exception). -/
def cleanup_old_logs (script : String) (m : Nat)
    (osError : String → Option String) (dir : List String) :
    Option (List String × List String) :=
  (cleanupLoop m osError (sortedMatching script dir)).map
    (fun pr => (dir.filter (fun f => !(pr.1.contains f)), pr.2))

/-- The filename `os.path.join(log_dir, f"{script_name}-{timestamp}.log")`
(relative to the log directory). -/
def logName (script timestamp : String) : String :=
  script ++ "-" ++ timestamp ++ ".log"

/-- `LoggerManager.__init__` as it affects the log directory: compute the
new filename from the timestamp, clean up old logs, then let the
`FileHandler` create the new file (if a file of that name survived — only
possible when the timestamp collides with an old file's — it is simply
appended to, adding no entry). -/
def loggerInit (script timestamp : String) (m : Nat)
    (osError : String → Option String) (dir : List String) :
    Option (List String × List String) :=
  (cleanup_old_logs script m osError dir).map
    (fun pr =>
      (if pr.1.contains (logName script timestamp) then pr.1
       else pr.1 ++ [logName script timestamp], pr.2))

/-- Sequential construction of one `LoggerManager` per timestamp in `ts`
(drawn in order from the wall clock), starting from directory `dir`,
with no removal failures; returns the final directory contents. -/
def loggerInitMany (script : String) (m : Nat) :
    List String → List String → Option (List String)
  | [], dir => some dir
  | t :: rest, dir =>
    match loggerInit script t m (fun _ => none) dir with
    | none => none
    | some pr => loggerInitMany script m rest pr.1

/-! ### Lemmas about the cleanup loop -/

/-- With `max_log_files ≥ 1` the cleanup loop always terminates normally and
pops exactly the first `len + 1 - m` (truncated at 0) sorted files, of which
the ones whose removal does not fail are removed and the failing ones are
reported on standard error, in order. -/
lemma cleanupLoop_eq (m : Nat) (osError : String → Option String) (hm : 1 ≤ m) :
    ∀ logs : List String,
      cleanupLoop m osError logs =
        some ((logs.take (logs.length + 1 - m)).filter (fun f => (osError f).isNone),
          (logs.take (logs.length + 1 - m)).filterMap
            (fun f => (osError f).map (removeMsg f))) := by
  intro logs
  induction logs with
  | nil =>
    have hk : ([] : List String).length + 1 - m = 0 := by
      simp only [List.length_nil]
      omega
    have hne : ¬ m = 0 := by omega
    rw [hk]
    simp [cleanupLoop, hne]
  | cons f rest ih =>
    have hstep : cleanupLoop m osError (f :: rest) =
        if m ≤ rest.length + 1 then
          (cleanupLoop m osError rest).map
            (fun pr =>
              match osError f with
              | some e => (pr.1, removeMsg f e :: pr.2)
              | none => (f :: pr.1, pr.2))
        else some ([], []) := rfl
    by_cases hc : m ≤ rest.length + 1
    · have hk : (f :: rest).length + 1 - m = (rest.length + 1 - m) + 1 := by
        simp only [List.length_cons]
        omega
      rw [hstep, if_pos hc, ih, hk, List.take_succ_cons]
      cases h : osError f with
      | some e => simp [List.filter_cons, List.filterMap_cons, h]
      | none => simp [List.filter_cons, List.filterMap_cons, h]
    · have hk : (f :: rest).length + 1 - m = 0 := by
        simp only [List.length_cons]
        omega
      rw [hstep, if_neg hc, hk]
      simp

/-- The filename created for a timestamp matches this component's glob
pattern. -/
lemma logName_matches (script t : String) :
    matchesLog script (logName script t) = true := by
  unfold matchesLog logName
  refine (Bool.and_eq_true _ _).mpr ⟨(Bool.and_eq_true _ _).mpr ⟨?_, ?_⟩, ?_⟩
  · apply List.isPrefixOf_iff_prefix.mpr
    simp only [String.data_append, List.append_assoc]
    rw [← List.append_assoc]
    exact List.prefix_append _ _
  · apply List.isSuffixOf_iff_suffix.mpr
    simp only [String.data_append]
    exact List.suffix_append _ _
  · apply decide_eq_true
    have h1 : ("-" : String).length = 1 := rfl
    have h4 : (".log" : String).length = 4 := rfl
    simp only [String.length_append, h1, h4]
    omega

/-- Distinct timestamps give distinct filenames for the same component. -/
lemma logName_inj (script a b : String) (h : logName script a = logName script b) :
    a = b := by
  unfold logName at h
  have hd := congrArg String.data h
  simp only [String.data_append, List.append_assoc] at hd
  exact String.ext
    (List.append_cancel_right (List.append_cancel_left (List.append_cancel_left hd)))

/-- Sorting is a permutation of the matching filenames. -/
lemma sortedMatching_perm (script : String) (dir : List String) :
    (sortedMatching script dir).Perm (dir.filter (matchesLog script)) :=
  List.perm_insertionSort _ _

lemma sortedMatching_nodup (script : String) (dir : List String) (h : dir.Nodup) :
    (sortedMatching script dir).Nodup :=
  (sortedMatching_perm script dir).nodup_iff.mpr (h.filter _)

lemma mem_sortedMatching (script f : String) (dir : List String) :
    f ∈ sortedMatching script dir ↔ f ∈ dir ∧ matchesLog script f = true := by
  rw [(sortedMatching_perm script dir).mem_iff, List.mem_filter]

lemma filter_not_contains_append (t d : List String) (hdt : ∀ x ∈ d, x ∉ t) :
    (t ++ d).filter (fun f => !(t.contains f)) = d := by
  rw [List.filter_append]
  have h1 : t.filter (fun f => !(t.contains f)) = [] := by
    apply List.filter_eq_nil_iff.mpr
    intro a ha
    simp [ha]
  have h2 : d.filter (fun f => !(t.contains f)) = d := by
    apply List.filter_eq_self.mpr
    intro a ha
    simp [hdt a ha]
  rw [h1, h2, List.nil_append]

/-- Dropping the names popped from the front of a duplicate-free sorted list
keeps exactly the remaining suffix. -/
lemma filter_not_contains_take (s : List String) (k : Nat) (h : s.Nodup) :
    s.filter (fun f => !((s.take k).contains f)) = s.drop k := by
  have hd : ∀ x ∈ s.drop k, x ∉ s.take k := by
    intro x hx hxt
    exact (List.disjoint_take_drop h (le_refl k)) hxt hx
  calc s.filter (fun f => !((s.take k).contains f))
      = (s.take k ++ s.drop k).filter (fun f => !((s.take k).contains f)) := by
        rw [List.take_append_drop]
    _ = s.drop k := filter_not_contains_append _ _ hd

/-- After removing the first `k` sorted matching names from a duplicate-free
directory, the number of matching files left is the original count minus
`k`. -/
lemma cleaned_matching_length (script : String) (dir : List String) (k : Nat)
    (h : dir.Nodup) :
    ((dir.filter (fun f => !(((sortedMatching script dir).take k).contains f))).filter
        (matchesLog script)).length =
      (sortedMatching script dir).length - k := by
  have h1 : (dir.filter (fun f => !(((sortedMatching script dir).take k).contains f))).filter
        (matchesLog script) =
      (dir.filter (matchesLog script)).filter
        (fun f => !(((sortedMatching script dir).take k).contains f)) := by
    rw [List.filter_filter, List.filter_filter]
    congr 1
    funext a
    exact Bool.and_comm _ _
  have h2 : ((dir.filter (matchesLog script)).filter
        (fun f => !(((sortedMatching script dir).take k).contains f))).length =
      ((sortedMatching script dir).filter
        (fun f => !(((sortedMatching script dir).take k).contains f))).length :=
    ((sortedMatching_perm script dir).symm.filter _).length_eq
  rw [h1, h2, filter_not_contains_take _ _ (sortedMatching_nodup script dir h),
    List.length_drop]

/-- Closed form of `_cleanup_old_logs` for `max_log_files ≥ 1`: it returns
normally; the new directory contents lose exactly the successfully removed
prefix of the sorted matching names, and the failing removals are reported. -/
lemma cleanup_old_logs_eq (script : String) (m : Nat)
    (osError : String → Option String) (dir : List String) (hm : 1 ≤ m) :
    cleanup_old_logs script m osError dir =
      some (dir.filter (fun f =>
          !((((sortedMatching script dir).take
              ((sortedMatching script dir).length + 1 - m)).filter
            (fun g => (osError g).isNone)).contains f)),
        ((sortedMatching script dir).take
            ((sortedMatching script dir).length + 1 - m)).filterMap
          (fun f => (osError f).map (removeMsg f))) := by
  unfold cleanup_old_logs
  rw [cleanupLoop_eq m osError hm]
  rfl

lemma filterMap_none (l : List String) :
    l.filterMap (fun _ => (none : Option String)) = [] := by
  induction l with
  | nil => rfl
  | cons a l ih => simp [List.filterMap_cons, ih]

/-- Full characterisation of one failure-free `LoggerManager` construction
on a duplicate-free directory with `max_log_files ≥ 1`: it succeeds with no
standard-error output; the resulting directory is duplicate-free; its files
all come from the old directory or are the new log file; files not matching
the component's pattern survive; the matching-file count is at most `m`,
and for a fresh timestamp it is exactly `min (old count) (m-1) + 1`. -/
lemma loggerInit_spec (script t : String) (m : Nat) (dir : List String)
    (hm : 1 ≤ m) (hdir : dir.Nodup) :
    ∃ d : List String,
      loggerInit script t m (fun _ => none) dir = some (d, []) ∧
      d.Nodup ∧
      (∀ f ∈ d, f ∈ dir ∨ f = logName script t) ∧
      (∀ f ∈ dir, matchesLog script f = false → f ∈ d) ∧
      (d.filter (matchesLog script)).length ≤ m ∧
      (logName script t ∉ dir →
        (d.filter (matchesLog script)).length =
          min ((dir.filter (matchesLog script)).length) (m - 1) + 1) := by
  have hclean := cleanup_old_logs_eq script m (fun _ => none) dir hm
  simp only [Option.isNone_none, List.filter_true, Option.map_none', filterMap_none]
    at hclean
  set s := sortedMatching script dir with hs
  set k := s.length + 1 - m with hk
  set cleaned := dir.filter (fun f => !((s.take k).contains f)) with hcleaned
  have hcnodup : cleaned.Nodup := hdir.filter _
  have hcsub : ∀ f ∈ cleaned, f ∈ dir := fun f hf => List.mem_of_mem_filter hf
  have hccount : (cleaned.filter (matchesLog script)).length = s.length - k :=
    cleaned_matching_length script dir k hdir
  have hslen : s.length = (dir.filter (matchesLog script)).length :=
    (sortedMatching_perm script dir).length_eq
  have hpres : ∀ f ∈ dir, matchesLog script f = false → f ∈ cleaned := by
    intro f hf hnm
    apply List.mem_filter.mpr
    refine ⟨hf, ?_⟩
    have hnot : f ∉ s.take k := by
      intro hmem
      have hfs : f ∈ s := List.mem_of_mem_take hmem
      have := ((mem_sortedMatching script f dir).mp hfs).2
      rw [hnm] at this
      exact Bool.false_ne_true this
    simp [hnot]
  unfold loggerInit
  rw [hclean]
  simp only [Option.map_some']
  by_cases hin : cleaned.contains (logName script t)
  · rw [if_pos hin]
    refine ⟨cleaned, rfl, hcnodup, fun f hf => Or.inl (hcsub f hf), hpres, ?_, ?_⟩
    · rw [hccount]
      omega
    · intro hfresh
      exact absurd (hcsub _ (by simpa using hin)) hfresh
  · rw [if_neg hin]
    have hnotmem : logName script t ∉ cleaned := by simpa using hin
    refine ⟨cleaned ++ [logName script t], rfl, ?_, ?_, ?_, ?_, ?_⟩
    · refine List.nodup_append.mpr ⟨hcnodup, List.nodup_singleton _, ?_⟩
      intro a ha hb
      rw [List.mem_singleton.mp hb] at ha
      exact hnotmem ha
    · intro f hf
      rcases List.mem_append.mp hf with hf' | hf'
      · exact Or.inl (hcsub f hf')
      · exact Or.inr (List.mem_singleton.mp hf')
    · intro f hf hnm
      exact List.mem_append_left _ (hpres f hf hnm)
    · rw [List.filter_append]
      simp only [List.filter_cons, List.filter_nil, logName_matches, if_pos,
        List.length_append]
      rw [hccount]
      simp only [List.length_cons, List.length_nil]
      omega
    · intro _
      rw [List.filter_append]
      simp only [List.filter_cons, List.filter_nil, logName_matches, if_pos,
        List.length_append]
      rw [hccount, hslen]
      simp only [List.length_cons, List.length_nil]
      omega

/-- The evolution of the matching-file count across sequential logger
constructions: each construction replaces count `c` by `min c (m-1) + 1`. -/
def iterCount (m : Nat) : Nat → Nat → Nat
  | 0, c => c
  | j + 1, c => iterCount m j (min c (m - 1) + 1)

lemma iterCount_min (m : Nat) (hm : 1 ≤ m) :
    ∀ j c, 1 ≤ j → iterCount m j c = min (c + j) m := by
  intro j
  induction j with
  | zero => intro c h; exact absurd h (by omega)
  | succ n ih =>
    intro c _
    rw [iterCount]
    by_cases hn : n = 0
    · subst hn
      simp only [iterCount]
      omega
    · rw [ih _ (by omega)]
      omega

/-- Sequential failure-free constructions with pairwise distinct fresh
timestamps, starting from a directory whose files all match the pattern:
the run succeeds and the final file count follows `iterCount`. -/
lemma loggerInitMany_spec (script : String) (m : Nat) (hm : 1 ≤ m) :
    ∀ (ts dir : List String), ts.Nodup → dir.Nodup →
      (∀ f ∈ dir, matchesLog script f = true) →
      (∀ t ∈ ts, logName script t ∉ dir) →
      ∃ d : List String, loggerInitMany script m ts dir = some d ∧
        d.Nodup ∧ (∀ f ∈ d, matchesLog script f = true) ∧
        (∀ f ∈ d, f ∈ dir ∨ ∃ t ∈ ts, f = logName script t) ∧
        d.length = iterCount m ts.length dir.length := by
  intro ts
  induction ts with
  | nil =>
    intro dir _ hdir hmatch _
    exact ⟨dir, rfl, hdir, hmatch, fun f hf => Or.inl hf, rfl⟩
  | cons t rest ih =>
    intro dir hts hdir hmatch hfresh
    obtain ⟨htrest, hrestnodup⟩ := List.nodup_cons.mp hts
    obtain ⟨d₁, hinit, hd₁nodup, hsub, _, _, hcount⟩ :=
      loggerInit_spec script t m dir hm hdir
    have hfresh_t : logName script t ∉ dir := hfresh t (List.mem_cons_self t rest)
    have hd₁match : ∀ f ∈ d₁, matchesLog script f = true := by
      intro f hf
      rcases hsub f hf with hf' | hf'
      · exact hmatch f hf'
      · rw [hf']
        exact logName_matches script t
    have hd₁fresh : ∀ t' ∈ rest, logName script t' ∉ d₁ := by
      intro t' ht' hmem
      rcases hsub _ hmem with hin | heq
      · exact hfresh t' (List.mem_cons_of_mem t ht') hin
      · exact htrest (logName_inj script t' t heq ▸ ht')
    obtain ⟨d, hmany, hdnodup, hdmatch, hdsub, hdcount⟩ :=
      ih d₁ hrestnodup hd₁nodup hd₁match hd₁fresh
    refine ⟨d, ?_, hdnodup, hdmatch, ?_, ?_⟩
    · show loggerInitMany script m (t :: rest) dir = some d
      unfold loggerInitMany
      rw [hinit]
      exact hmany
    · intro f hf
      rcases hdsub f hf with hf' | ⟨t', ht', heq⟩
      · rcases hsub f hf' with hin | heq
        · exact Or.inl hin
        · exact Or.inr ⟨t, List.mem_cons_self t rest, heq⟩
      · exact Or.inr ⟨t', List.mem_cons_of_mem t ht', heq⟩
    · have hd₁len : d₁.length = min dir.length (m - 1) + 1 := by
        have h1 := hcount hfresh_t
        rw [List.filter_eq_self.mpr hd₁match] at h1
        rw [List.filter_eq_self.mpr hmatch] at h1
        exact h1
      rw [hdcount, hd₁len, List.length_cons, iterCount]

/-! ### C5 -/

/-- C5: log-file retention.  First conjunct: one `LoggerManager`
construction on a duplicate-free log directory deletes the oldest matching
files until at most `max_log_files - 1` remain before the new file is
created, so afterwards at most `max_log_files` matching log files exist.
Second conjunct: constructing `max_log_files + 2` loggers sequentially with
distinct timestamps for the same component, starting from an empty log
directory, leaves exactly `max_log_files` log files. -/
theorem log_retention (script t : String) (m : Nat) (dir ts : List String)
    (hm : 1 ≤ m) (hdir : dir.Nodup) (hts : ts.Nodup) (hlen : ts.length = m + 2) :
    (∀ d errs, loggerInit script t m (fun _ => none) dir = some (d, errs) →
      (d.filter (matchesLog script)).length ≤ m) ∧
    (∃ d, loggerInitMany script m ts [] = some d ∧
      (d.filter (matchesLog script)).length = m) := by
  constructor
  · intro d errs heq
    obtain ⟨d', heq', _, _, _, hbound, _⟩ := loggerInit_spec script t m dir hm hdir
    rw [heq] at heq'
    have hpair := Option.some.inj heq'
    have hd : d = d' := congrArg Prod.fst hpair
    rw [hd]
    exact hbound
  · obtain ⟨d, hmany, _, hdmatch, _, hdcount⟩ :=
      loggerInitMany_spec script m hm ts [] hts List.nodup_nil
        (by intro f hf; exact absurd hf (List.not_mem_nil f))
        (by intro t' _ hmem; exact absurd hmem (List.not_mem_nil _))
    refine ⟨d, hmany, ?_⟩
    rw [List.filter_eq_self.mpr hdmatch, hdcount, hlen,
      iterCount_min m hm (m + 2) _ (by omega)]
    simp only [List.length_nil]
    omega

/-- Witness for C5 at concrete inputs: component "app", retention 1, an
existing directory with one old log file, and three (= 1 + 2) sequential
constructions from an empty directory. -/
theorem log_retention_witness :
    (∀ d errs, loggerInit "app" "t9" 1 (fun _ => none) ["app-t0.log"] = some (d, errs) →
      (d.filter (matchesLog "app")).length ≤ 1) ∧
    (∃ d, loggerInitMany "app" 1 ["a", "b", "c"] [] = some d ∧
      (d.filter (matchesLog "app")).length = 1) :=
  log_retention "app" "t9" 1 ["app-t0.log"] ["a", "b", "c"]
    (by decide) (by decide) (by decide) (by decide)

/-! ### C9 -/

/-- C9: failing deletions never abort logger construction.  With
`max_log_files ≥ 1`, for an arbitrary pattern of `os.remove` failures the
construction returns normally; every failed removal is reported on standard
error (`errs` is exactly the removal-error messages of the failing files
among those the loop popped, in oldest-first order — in particular cleanup
continued past each failure to the remaining files); and a file whose
removal failed remains on disk. -/
theorem cleanup_failure_resilient (script t : String) (m : Nat)
    (osError : String → Option String) (dir : List String) (hm : 1 ≤ m) :
    ∃ d errs, loggerInit script t m osError dir = some (d, errs) ∧
      errs = ((sortedMatching script dir).take
          ((sortedMatching script dir).length + 1 - m)).filterMap
        (fun f => (osError f).map (removeMsg f)) ∧
      (∀ f ∈ dir, (osError f).isSome = true → f ∈ d) := by
  have hclean := cleanup_old_logs_eq script m osError dir hm
  set s := sortedMatching script dir with hs
  set k := s.length + 1 - m with hk
  set removed := (s.take k).filter (fun g => (osError g).isNone) with hremoved
  set cleaned := dir.filter (fun f => !(removed.contains f)) with hcleaned
  have hsurvive : ∀ f ∈ dir, (osError f).isSome = true → f ∈ cleaned := by
    intro f hf hfail
    apply List.mem_filter.mpr
    refine ⟨hf, ?_⟩
    have hnot : f ∉ removed := by
      intro hmem
      have hnone := List.of_mem_filter hmem
      rw [Option.isNone_iff_eq_none] at hnone
      rw [hnone] at hfail
      exact Bool.false_ne_true hfail
    simp [hnot]
  unfold loggerInit
  rw [hclean]
  simp only [Option.map_some']
  by_cases hin : cleaned.contains (logName script t)
  · rw [if_pos hin]
    exact ⟨cleaned, _, rfl, rfl, hsurvive⟩
  · rw [if_neg hin]
    exact ⟨cleaned ++ [logName script t], _, rfl, rfl,
      fun f hf hfail => List.mem_append_left _ (hsurvive f hf hfail)⟩

/-- Witness for C9 at concrete inputs: retention 1, two old log files of
which the older fails to delete with a "busy" OSError. -/
theorem cleanup_failure_resilient_witness :
    ∃ d errs, loggerInit "app" "t9" 1
        (fun f => if f = "app-t0.log" then some "busy" else none)
        ["app-t0.log", "app-t1.log"] = some (d, errs) ∧
      errs = ((sortedMatching "app" ["app-t0.log", "app-t1.log"]).take
          ((sortedMatching "app" ["app-t0.log", "app-t1.log"]).length + 1 - 1)).filterMap
        (fun f => ((fun g => if g = "app-t0.log" then some "busy" else none) f).map
          (removeMsg f)) ∧
      (∀ f ∈ ["app-t0.log", "app-t1.log"],
        ((fun g => if g = "app-t0.log" then some "busy" else none) f).isSome = true →
          f ∈ d) :=
  cleanup_failure_resilient "app" "t9" 1
    (fun g => if g = "app-t0.log" then some "busy" else none)
    ["app-t0.log", "app-t1.log"] (by decide)

/-! ### C10 -/

/-- C10 (frame property): `LoggerManager` construction only ever deletes
files whose names match the component's `<script>-*.log` pattern; every
file of the log directory that does not match the pattern — other
components' log files, non-log files — is still present afterwards, for any
pattern of removal failures. -/
theorem cleanup_frame (script t : String) (m : Nat)
    (osError : String → Option String) (dir : List String) (hm : 1 ≤ m) :
    ∃ d errs, loggerInit script t m osError dir = some (d, errs) ∧
      (∀ f ∈ dir, matchesLog script f = false → f ∈ d) ∧
      (∀ f ∈ dir, f ∉ d → matchesLog script f = true) := by
  have hclean := cleanup_old_logs_eq script m osError dir hm
  set s := sortedMatching script dir with hs
  set k := s.length + 1 - m with hk
  set removed := (s.take k).filter (fun g => (osError g).isNone) with hremoved
  set cleaned := dir.filter (fun f => !(removed.contains f)) with hcleaned
  have hpres : ∀ f ∈ dir, matchesLog script f = false → f ∈ cleaned := by
    intro f hf hnm
    apply List.mem_filter.mpr
    refine ⟨hf, ?_⟩
    have hnot : f ∉ removed := by
      intro hmem
      have hfs : f ∈ s := List.mem_of_mem_take (List.mem_of_mem_filter hmem)
      have hmatch := ((mem_sortedMatching script f dir).mp hfs).2
      rw [hnm] at hmatch
      exact Bool.false_ne_true hmatch
    simp [hnot]
  have hframe : ∀ (d : List String), (∀ f ∈ dir, matchesLog script f = false → f ∈ d) →
      ∀ f ∈ dir, f ∉ d → matchesLog script f = true := by
    intro d hp f hf hnd
    cases hmf : matchesLog script f with
    | true => rfl
    | false => exact absurd (hp f hf hmf) hnd
  unfold loggerInit
  rw [hclean]
  simp only [Option.map_some']
  by_cases hin : cleaned.contains (logName script t)
  · rw [if_pos hin]
    exact ⟨cleaned, _, rfl, hpres, hframe cleaned hpres⟩
  · rw [if_neg hin]
    have hpres' : ∀ f ∈ dir, matchesLog script f = false →
        f ∈ cleaned ++ [logName script t] :=
      fun f hf hnm => List.mem_append_left _ (hpres f hf hnm)
    exact ⟨cleaned ++ [logName script t], _, rfl, hpres',
      hframe (cleaned ++ [logName script t]) hpres'⟩

/-- Witness for C10 at concrete inputs: a directory holding this
component's log, another component's log, and a non-log file. -/
theorem cleanup_frame_witness :
    ∃ d errs, loggerInit "app" "t9" 1 (fun _ => none)
        ["app-t0.log", "bpp-t0.log", "data.csv"] = some (d, errs) ∧
      (∀ f ∈ ["app-t0.log", "bpp-t0.log", "data.csv"],
        matchesLog "app" f = false → f ∈ d) ∧
      (∀ f ∈ ["app-t0.log", "bpp-t0.log", "data.csv"],
        f ∉ d → matchesLog "app" f = true) :=
  cleanup_frame "app" "t9" 1 (fun _ => none)
    ["app-t0.log", "bpp-t0.log", "data.csv"] (by decide)

end PriceOpt
